import Mathlib

/-!
Verification of the CURRALMS learning-management core against its
natural-language specification.

The definitions below are a shallow embedding of the Python source:

* `services/grading.py`      → `grade_multiple_choice`, `grade_true_false`,
                               `grade_coding_question`, `grade_question`
* `services/progress_service.py` (`get_course_progress`) →
                               `ensureEnrollment`, `get_course_progress`
* `routers/quiz.py` (`submit_quiz`) → `gradeQuestions`, `submit_quiz`
* `crud/quiz.py`             → `create_quiz_completion`, `update_quiz`,
                               `delete_quiz`, `create_quiz`
* `routers/assignment.py` (`_create_submission`) and
  `crud/assignment.py` (`get_active_late_approval`) →
                               `get_active_late_approval`, `createSubmission`

Conventions: MongoDB collections become Lean lists (insert_one appends,
find_one takes the first match, update_one rewrites the first match,
delete_many filters); Python strings are modelled as `List Char`; Python
floats over the values that occur here are modelled exactly as rationals;
`datetime` values become integers (an epoch count), with an `aware` flag
where the source distinguishes naive from timezone-aware values;
generated UUID primary keys are elided because no verified computation
reads them; the `datetime.utcnow()` calls inside one request are
modelled by a single `now` parameter.
-/

/-! ## Definitions: the shallow embedding of the source -/

/-- Python `str.lower()` restricted to per-character case folding. -/
def pyLower (s : List Char) : List Char :=
  s.map Char.toLower

/-- Python `str.strip()`: drop leading and trailing whitespace. -/
def pyStrip (s : List Char) : List Char :=
  ((s.dropWhile Char.isWhitespace).reverse.dropWhile Char.isWhitespace).reverse

/-- Tests whether `hay` starts with `pre` (Python prefix test, used for the `in` operator). -/
def hasPfx : List Char → List Char → Bool
  | [], _ => true
  | _ :: _, [] => false
  | a :: pre, b :: hay => a == b && hasPfx pre hay

/-- Python's `needle in hay` substring test. -/
def strContains (hay needle : List Char) : Bool :=
  (List.range (hay.length + 1)).any fun i => hasPfx needle (hay.drop i)

/-- Python `round` to an integer: banker's rounding (round half to even). -/
def pyRoundHalfEven (q : ℚ) : ℤ :=
  let f : ℤ := ⌊q⌋
  let r : ℚ := q - f
  if r < 1/2 then f
  else if 1/2 < r then f + 1
  else if f % 2 = 0 then f else f + 1

/-- Python `round(q, 2)`. -/
def round2 (q : ℚ) : ℚ :=
  (pyRoundHalfEven (q * 100) : ℚ) / 100

/-- One coding test case. In the source this is a dict read with
`test_case.get('expected_output', '')` and `test_case.get('input', '')`;
both fields are modelled as always-present strings. -/
structure TestCase where
  input : List Char
  expected_output : List Char
  deriving Repr, DecidableEq

/-- One entry of the `test_details` list built by `grade_coding_question`. -/
structure TestDetail where
  test_case : List Char
  expected : List Char
  passed : Bool
  deriving Repr, DecidableEq

/-- Return dict of `grade_coding_question`. -/
structure CodingResult where
  passed : Bool
  score : ℚ
  passed_tests : ℕ
  total_tests : ℕ
  details : List TestDetail
  deriving Repr, DecidableEq

/-- Embeds `GradingService.grade_multiple_choice`:
`user_answer.strip().lower() == correct_answer.strip().lower()`. -/
def grade_multiple_choice (user_answer correct_answer : List Char) : Bool :=
  pyLower (pyStrip user_answer) == pyLower (pyStrip correct_answer)

/-- Embeds `GradingService.grade_true_false`:
`str(user_answer).lower() == str(correct_answer).lower()` — note: no strip. -/
def grade_true_false (user_answer correct_answer : List Char) : Bool :=
  pyLower user_answer == pyLower correct_answer

/-- Loop body of `grade_coding_question`: accumulate (passed_tests, details). -/
def codingStep (user_code : List Char) (acc : ℕ × List TestDetail) (tc : TestCase) :
    ℕ × List TestDetail :=
  let passed := strContains (pyLower user_code) (pyLower tc.expected_output)
  ((if passed then acc.1 + 1 else acc.1),
   acc.2 ++ [⟨tc.input, tc.expected_output, passed⟩])

/-- Embeds `GradingService.grade_coding_question`. The `try/except` in the source
cannot fire: every operation in the loop is total. -/
def grade_coding_question (user_code : List Char) (test_cases : List TestCase) :
    CodingResult :=
  let total_tests := test_cases.length
  let res := test_cases.foldl (codingStep user_code) (0, [])
  { passed := res.1 == total_tests
    score := if 0 < total_tests then (res.1 : ℚ) / (total_tests : ℚ) * 100 else 0
    passed_tests := res.1
    total_tests := total_tests
    details := res.2 }

/-- Shape of the dict returned by `GradingService.grade_question`:
multiple-choice / true-false / unknown types return `{'correct': …, 'details': …}`,
coding questions return the `grade_coding_question` dict. -/
inductive GradeResult where
  | choice (correct : Bool) (details : Option (List Char))
  | codingR (r : CodingResult)
  deriving Repr, DecidableEq

/-- Embeds `GradingService.grade_question`: dispatch on the stored type string;
unknown types return `{'correct': False, 'details': 'Unknown question type'}`. -/
def grade_question (question_type user_answer correct_answer : List Char)
    (test_cases : List TestCase) : GradeResult :=
  if question_type == "multiple_choice".toList then
    .choice (grade_multiple_choice user_answer correct_answer) none
  else if question_type == "true_false".toList then
    .choice (grade_true_false user_answer correct_answer) none
  else if question_type == "coding".toList then
    .codingR (grade_coding_question user_answer test_cases)
  else
    .choice false (some "Unknown question type".toList)

/-- A document of `db.quizzes`. -/
structure QuizDoc where
  id : List Char
  course_id : List Char
  passing_score : ℚ
  deriving Repr, DecidableEq

/-- A document of `db.quiz_questions`. `options` / `code_template` are elided:
the grading logic never reads them. -/
structure QuestionDoc where
  id : List Char
  quiz_id : List Char
  question_type : List Char
  correct_answer : List Char
  test_cases : List TestCase
  deriving Repr, DecidableEq

/-- One entry of the `detailed_results` list built by `submit_quiz`. -/
structure DetailedResult where
  question_id : List Char
  question_type : List Char
  result : List Char
  details : Option (List TestDetail)
  deriving Repr, DecidableEq

/-- A document of `db.user_quiz_completions` (one `QuizAttempt`). -/
structure CompletionDoc where
  user_id : List Char
  quiz_id : List Char
  score : ℚ
  attempt_number : ℕ
  passed : Bool
  detailed_results : List DetailedResult
  completed_at : ℤ
  deriving Repr, DecidableEq

/-- A document of `db.enrollments`. -/
structure EnrollmentDoc where
  user_id : List Char
  course_id : List Char
  progress_percentage : ℚ
  status : List Char
  enrolled_at : ℤ
  updated_at : ℤ
  deriving Repr, DecidableEq

/-- The collections touched by the quiz / progress core. -/
structure Db where
  quizzes : List QuizDoc
  quiz_questions : List QuestionDoc
  user_quiz_completions : List CompletionDoc
  enrollments : List EnrollmentDoc
  deriving Repr, DecidableEq

/-- Mongo `update_one`: rewrite the first document matching `p` with `f`. -/
def updateFirst (p : α → Bool) (f : α → α) : List α → List α
  | [] => []
  | a :: l => if p a then f a :: l else a :: updateFirst p f l

/-- The `{"user_id": u, "course_id": c}` filter on enrollments. -/
def matchEnroll (u c : List Char) (e : EnrollmentDoc) : Bool :=
  e.user_id == u && e.course_id == c

/-- Lines 31–48 of `progress_service.py`: look up the `(user, course)`
enrollment; if none exists insert one with progress 0 and status
`in_progress`, and continue with the freshly built document. -/
def ensureEnrollment (user_id course_id : List Char) (now : ℤ) (db : Db) :
    EnrollmentDoc × Db :=
  match db.enrollments.find? (matchEnroll user_id course_id) with
  | some e => (e, db)
  | none =>
      let e : EnrollmentDoc :=
        { user_id := user_id
          course_id := course_id
          progress_percentage := 0
          status := "in_progress".toList
          enrolled_at := now
          updated_at := now }
      (e, { db with enrollments := db.enrollments ++ [e] })

/-- The `$set` payload of the enrollment update at lines 68–76. -/
def setProgress (progress : ℚ) (status : List Char) (now : ℤ) (e : EnrollmentDoc) :
    EnrollmentDoc :=
  { e with progress_percentage := progress, status := status, updated_at := now }

/-- Return dict of `get_course_progress`. -/
structure ProgressResult where
  user_id : List Char
  course_id : List Char
  overall_progress : ℚ
  lesson_progress : ℚ
  quiz_progress : ℚ
  completed_quizzes : ℕ
  total_quizzes : ℕ
  status : List Char
  deriving Repr, DecidableEq

/-- Embeds `ProgressService.get_course_progress`, the recompute operation of the
ProgressAggregator. It returns the progress dict and the updated database. -/
def get_course_progress (user_id course_id : List Char) (now : ℤ) (db : Db) :
    ProgressResult × Db :=
  let course_quizzes := db.quizzes.filter fun q => q.course_id == course_id
  let total_quizzes := course_quizzes.length
  let quiz_ids := course_quizzes.map (·.id)
  let completed_quizzes :=
    (db.user_quiz_completions.filter fun cc =>
      cc.user_id == user_id && quiz_ids.contains cc.quiz_id).length
  let quiz_progress_percentage : ℚ :=
    if 0 < total_quizzes then
      min 100 ((completed_quizzes : ℚ) / (total_quizzes : ℚ) * 100)
    else 0
  let ed := ensureEnrollment user_id course_id now db
  let lesson_progress := ed.1.progress_percentage
  let overall_progress : ℚ :=
    if 0 < total_quizzes then min 100 ((lesson_progress + quiz_progress_percentage) / 2)
    else min 100 lesson_progress
  let enrollment_status : List Char :=
    if 100 ≤ overall_progress then "completed".toList
    else if 0 < overall_progress then "in_progress".toList
    else "not_started".toList
  let db2 : Db :=
    { ed.2 with
        enrollments :=
          updateFirst (matchEnroll user_id course_id)
            (setProgress overall_progress enrollment_status now) ed.2.enrollments }
  ({ user_id := user_id
     course_id := course_id
     overall_progress := round2 overall_progress
     lesson_progress := round2 lesson_progress
     quiz_progress := round2 quiz_progress_percentage
     completed_quizzes := completed_quizzes
     total_quizzes := total_quizzes
     status := enrollment_status }, db2)

/-- Embeds `QuizCRUD.create_quiz_completion`: count the prior attempts of the
`(user, quiz)` pair, assign `attempt_number = prior + 1`, append the record. -/
def create_quiz_completion (user_id quiz_id : List Char) (score : ℚ) (passed : Bool)
    (detailed_results : List DetailedResult) (now : ℤ) (db : Db) :
    CompletionDoc × Db :=
  let previous_attempts :=
    (db.user_quiz_completions.filter fun cc =>
      cc.user_id == user_id && cc.quiz_id == quiz_id).length
  let doc : CompletionDoc :=
    { user_id := user_id
      quiz_id := quiz_id
      score := score
      attempt_number := previous_attempts + 1
      passed := passed
      detailed_results := detailed_results
      completed_at := now }
  (doc, { db with user_quiz_completions := db.user_quiz_completions ++ [doc] })

/-- Embeds `QuizCRUD.create_quiz`: insert the quiz document and its questions.
The caller supplies the question documents (standing for the generated UUIDs). -/
def create_quiz (quiz : QuizDoc) (questions : List QuestionDoc) (db : Db) : Db :=
  { db with
      quizzes := db.quizzes ++ [quiz]
      quiz_questions := db.quiz_questions ++ questions }

/-- Embeds `QuizCRUD.update_quiz`: if the quiz exists, `$set` its fields, delete all
its questions and insert the replacement questions. Returns `none` (and the
unchanged database) when the quiz does not exist. -/
def update_quiz (quiz_id : List Char) (course_id : List Char) (passing_score : ℚ)
    (newQuestions : List QuestionDoc) (db : Db) : Option QuizDoc × Db :=
  match db.quizzes.find? (fun q => q.id == quiz_id) with
  | none => (none, db)
  | some _ =>
      let db1 : Db :=
        { db with
            quizzes :=
              updateFirst (fun q => q.id == quiz_id)
                (fun q => { q with course_id := course_id, passing_score := passing_score })
                db.quizzes
            quiz_questions :=
              (db.quiz_questions.filter fun qq => !(qq.quiz_id == quiz_id)) ++ newQuestions }
      (db1.quizzes.find? (fun q => q.id == quiz_id), db1)

/-- Embeds `QuizCRUD.delete_quiz`: if the quiz exists, delete it, its questions and
all `user_quiz_completions` recorded against it. -/
def delete_quiz (quiz_id : List Char) (db : Db) : Bool × Db :=
  match db.quizzes.find? (fun q => q.id == quiz_id) with
  | none => (false, db)
  | some _ =>
      (true,
       { db with
           quizzes := db.quizzes.filter fun q => !(q.id == quiz_id)
           quiz_questions := db.quiz_questions.filter fun qq => !(qq.quiz_id == quiz_id)
           user_quiz_completions :=
             db.user_quiz_completions.filter fun cc => !(cc.quiz_id == quiz_id) })

/-- Python `submission.answers.get(question_id)` on the answers dict,
modelled as first-match lookup in an association list. -/
def answersGet (answers : List (List Char × List Char)) (qid : List Char) :
    Option (List Char) :=
  (answers.find? fun p => p.1 == qid).map (·.2)

/-- Reads `grade_result['correct']`: only `{'correct': …}`-shaped dicts carry the
key; reading it from a coding dict would raise `KeyError` in the source, which
cannot happen on the branch that reads it (multiple_choice / true_false
questions always receive a choice-shaped dict). -/
def resultCorrect : GradeResult → Bool
  | .choice c _ => c
  | .codingR _ => false

/-- Reads `grade_result['passed']`, same caveat as `resultCorrect`. -/
def resultPassed : GradeResult → Bool
  | .codingR r => r.passed
  | .choice _ _ => false

/-- Reads `grade_result.get('details')` of a coding grade. -/
def resultDetails : GradeResult → Option (List TestDetail)
  | .codingR r => some r.details
  | .choice _ _ => none

/-- One iteration of the grading loop of `submit_quiz` (lines 107–150):
the accumulator is `(correct_count, detailed_results)`. A question whose
stored type is none of the three known types falls through both branches:
the count is unchanged and no detailed result is appended. -/
def gradeStep (answers : List (List Char × List Char)) (acc : ℕ × List DetailedResult)
    (question : QuestionDoc) : ℕ × List DetailedResult :=
  match answersGet answers question.id with
  | none =>
      (acc.1, acc.2 ++ [⟨question.id, question.question_type, "unanswered".toList, none⟩])
  | some user_answer =>
      let grade_result :=
        grade_question question.question_type user_answer question.correct_answer
          question.test_cases
      if question.question_type == "multiple_choice".toList
          || question.question_type == "true_false".toList then
        if resultCorrect grade_result then
          (acc.1 + 1, acc.2 ++ [⟨question.id, question.question_type, "correct".toList, none⟩])
        else
          (acc.1, acc.2 ++ [⟨question.id, question.question_type, "incorrect".toList, none⟩])
      else if question.question_type == "coding".toList then
        let p := resultPassed grade_result
        ((if p then acc.1 + 1 else acc.1),
         acc.2 ++ [⟨question.id, question.question_type,
                    (if p then "passed".toList else "failed".toList),
                    resultDetails grade_result⟩])
      else
        acc

/-- The grading loop of `submit_quiz`: fold `gradeStep` over the questions. -/
def gradeQuestions (questions : List QuestionDoc)
    (answers : List (List Char × List Char)) : ℕ × List DetailedResult :=
  questions.foldl (gradeStep answers) (0, [])

/-- Return value of `submit_quiz` (the `QuizResult` response model). -/
structure QuizResultOut where
  quiz_id : List Char
  user_id : List Char
  score : ℚ
  passed : Bool
  completed_at : ℤ
  detailed_results : List DetailedResult
  progress : Option ProgressResult
  deriving Repr, DecidableEq

/-- Embeds `ProgressService.update_course_progress_after_quiz`: look up the quiz to
find its course, then recompute the course progress. -/
def update_course_progress_after_quiz (user_id quiz_id : List Char) (now : ℤ)
    (db : Db) : Option ProgressResult × Db :=
  match db.quizzes.find? (fun q => q.id == quiz_id) with
  | none => (none, db)
  | some quiz =>
      let rd := get_course_progress user_id quiz.course_id now db
      (some rd.1, rd.2)

/-- Core of the `submit_quiz` endpoint, after its two guards (quiz exists,
question list non-empty) have passed: grade every question, compute the score,
record the attempt, recompute course progress and build the response. -/
def submitCore (quiz : QuizDoc) (questions : List QuestionDoc)
    (answers : List (List Char × List Char)) (user_id : List Char) (now : ℤ)
    (db : Db) : QuizResultOut × Db :=
  let graded := gradeQuestions questions answers
  let score : ℚ := (graded.1 : ℚ) / (questions.length : ℚ) * 100
  let passed : Bool := quiz.passing_score ≤ score
  let cd := create_quiz_completion user_id quiz.id score passed graded.2 now db
  let pr := update_course_progress_after_quiz user_id quiz.id now cd.2
  ({ quiz_id := quiz.id
     user_id := user_id
     score := round2 score
     passed := passed
     completed_at := cd.1.completed_at
     detailed_results := graded.2
     progress := pr.1 }, pr.2)

/-- The `submit_quiz` endpoint: 404 when the quiz does not exist, 400 when it
has no questions, otherwise `submitCore`. -/
def submit_quiz (quiz_id : List Char) (answers : List (List Char × List Char))
    (user_id : List Char) (now : ℤ) (db : Db) :
    Except (List Char) (QuizResultOut × Db) :=
  match db.quizzes.find? (fun q => q.id == quiz_id) with
  | none => .error "Quiz not found".toList
  | some quiz =>
      let questions := db.quiz_questions.filter fun qq => qq.quiz_id == quiz_id
      if questions.isEmpty then
        .error "No questions available for this quiz".toList
      else
        .ok (submitCore quiz questions answers user_id now db)

/-- A Python `datetime`: an epoch count plus an awareness flag. An aware value
is in UTC; a naive value carries the same clock reading without a timezone. -/
structure PyDateTime where
  t : ℤ
  aware : Bool
  deriving Repr, DecidableEq

/-- A document of `db.late_approvals`. `approved_until` is stored naive-UTC,
compared against `datetime.utcnow()`. -/
structure LateApprovalDoc where
  user_id : List Char
  assignment_id : List Char
  approved_until : ℤ
  deriving Repr, DecidableEq

/-- A document of `db.submissions`. Grade / feedback fields are elided: the
eligibility logic never reads them. -/
structure SubmissionDoc where
  user_id : List Char
  assignment_id : List Char
  submission_type : List Char
  content : Option (List Char)
  file_url : Option (List Char)
  submitted_at : ℤ
  deriving Repr, DecidableEq

/-- The collections touched by the submission-eligibility core. -/
structure AsgDb where
  submissions : List SubmissionDoc
  late_approvals : List LateApprovalDoc
  deriving Repr, DecidableEq

/-- Embeds `get_submission_by_user_and_assignment`. -/
def get_submission_by_user_and_assignment (user_id assignment_id : List Char)
    (db : AsgDb) : Option SubmissionDoc :=
  db.submissions.find? fun s => s.user_id == user_id && s.assignment_id == assignment_id

/-- Embeds `get_active_late_approval`: the first approval of the pair whose
`approved_until` is strictly in the future. -/
def get_active_late_approval (user_id assignment_id : List Char) (now : ℤ)
    (db : AsgDb) : Option LateApprovalDoc :=
  db.late_approvals.find? fun a =>
    a.user_id == user_id && a.assignment_id == assignment_id
      && decide (now < a.approved_until)

/-- Embeds `create_late_approval_crud`: delete any approval of the pair, insert the
new one. -/
def create_late_approval_crud (user_id assignment_id : List Char)
    (approved_until : ℤ) (db : AsgDb) : LateApprovalDoc × AsgDb :=
  let doc : LateApprovalDoc := ⟨user_id, assignment_id, approved_until⟩
  (doc,
   { db with
       late_approvals :=
         (db.late_approvals.filter fun a =>
           !(a.user_id == user_id && a.assignment_id == assignment_id)) ++ [doc] })

/-- Embeds `_create_submission` from the duplicate-submission check onward (the
earlier role / existence / enrollment guards are surrounding plumbing).
`now` is `datetime.now(timezone.utc)`; a naive due date is reinterpreted as
UTC (`replace(tzinfo=timezone.utc)`) before the comparison. -/
def createSubmission (user_id assignment_id : List Char) (due_date : PyDateTime)
    (submission_type : List Char) (content file_url : Option (List Char))
    (now : ℤ) (db : AsgDb) : Except (List Char) (SubmissionDoc × AsgDb) :=
  match get_submission_by_user_and_assignment user_id assignment_id db with
  | some _ => .error "Assignment already submitted".toList
  | none =>
      let due_date_aware : PyDateTime :=
        if due_date.aware then due_date else { due_date with aware := true }
      let is_past_due : Bool := decide (due_date_aware.t < now)
      if is_past_due
          && (get_active_late_approval user_id assignment_id now db).isNone then
        .error "Assignment is past due date and no active late submission approval found".toList
      else
        let doc : SubmissionDoc :=
          ⟨user_id, assignment_id, submission_type, content, file_url, now⟩
        .ok (doc, { db with submissions := db.submissions ++ [doc] })

/-- The quizzes of a course, as read at line 18 of `progress_service.py`. -/
def courseQuizzes (course_id : List Char) (db : Db) : List QuizDoc :=
  db.quizzes.filter fun q => q.course_id == course_id

/-- The `total_quizzes` value of `get_course_progress`. -/
def totalQuizzesOf (course_id : List Char) (db : Db) : ℕ :=
  (courseQuizzes course_id db).length

/-- The `completed_quizzes` value of `get_course_progress`: the number of completion
*records* of the user against the course's quizzes. A quiz attempted twice
contributes two records. -/
def completionCountOf (user_id course_id : List Char) (db : Db) : ℕ :=
  (db.user_quiz_completions.filter fun cc =>
    cc.user_id == user_id
      && ((courseQuizzes course_id db).map (·.id)).contains cc.quiz_id).length

/-- The `quiz_progress_percentage` value of `get_course_progress`. -/
def quizProgressOf (user_id course_id : List Char) (db : Db) : ℚ :=
  if 0 < totalQuizzesOf course_id db then
    min 100 ((completionCountOf user_id course_id db : ℚ)
      / (totalQuizzesOf course_id db : ℚ) * 100)
  else 0

/-- The `progress_percentage` stored on the `(user, course)` enrollment
(0 when no enrollment exists), which `get_course_progress` reads back as
`lesson_progress`. -/
def lessonOf (user_id course_id : List Char) (db : Db) : ℚ :=
  match db.enrollments.find? (matchEnroll user_id course_id) with
  | some e => e.progress_percentage
  | none => 0

/-- The `overall_progress` value of `get_course_progress`. -/
def overallOf (user_id course_id : List Char) (db : Db) : ℚ :=
  if 0 < totalQuizzesOf course_id db then
    min 100 ((lessonOf user_id course_id db + quizProgressOf user_id course_id db) / 2)
  else min 100 (lessonOf user_id course_id db)

/-- The EnrollmentLifecycle decision of lines 60–66. -/
def statusOf (overall : ℚ) : List Char :=
  if 100 ≤ overall then "completed".toList
  else if 0 < overall then "in_progress".toList
  else "not_started".toList

/-- The number of *distinct* quizzes of the course for which the user has at
least one recorded attempt — the quantity the specification's
`distinctCompletedQuizzes` describes (for comparison with the code's raw
record count `completionCountOf`). -/
def specDistinctCompleted (user_id course_id : List Char) (db : Db) : ℕ :=
  (((db.user_quiz_completions.filter fun cc =>
      cc.user_id == user_id
        && ((courseQuizzes course_id db).map (·.id)).contains cc.quiz_id).map
    (·.quiz_id)).dedup).length

/-- The quiz-progress figure the specification describes:
`min(100, (distinctCompletedQuizzes / totalQuizzes) * 100)`, else 0. -/
def specQuizProgress (user_id course_id : List Char) (db : Db) : ℚ :=
  if 0 < totalQuizzesOf course_id db then
    min 100 ((specDistinctCompleted user_id course_id db : ℚ)
      / (totalQuizzesOf course_id db : ℚ) * 100)
  else 0

/-- Course `c1` with two quizzes; user `u1` has attempted quiz `q1` twice and
quiz `q2` never. -/
def dbC1 : Db :=
  { quizzes := [⟨"q1".toList, "c1".toList, 50⟩, ⟨"q2".toList, "c1".toList, 50⟩]
    quiz_questions := []
    user_quiz_completions :=
      [⟨"u1".toList, "q1".toList, 80, 1, true, [], 0⟩,
       ⟨"u1".toList, "q1".toList, 90, 2, true, [], 1⟩]
    enrollments := [] }

/-- Course `c1` has one quiz, never attempted by `u1`; the enrollment's stored
progress starts at 100. -/
def dbC2 : Db :=
  { quizzes := [⟨"q1".toList, "c1".toList, 50⟩]
    quiz_questions := []
    user_quiz_completions := []
    enrollments := [⟨"u1".toList, "c1".toList, 100, "enrolled".toList, 0, 0⟩] }

/-- A database with no quizzes and one enrollment, for the C2 witness. -/
def dbC2w : Db :=
  { quizzes := []
    quiz_questions := []
    user_quiz_completions := []
    enrollments := [⟨"u1".toList, "c1".toList, 30, "enrolled".toList, 0, 0⟩] }

/-- The empty database. -/
def emptyDb : Db := ⟨[], [], [], []⟩

/-- The comparison the specification describes for choice questions: equality
after trimming surrounding whitespace and ignoring letter case. -/
def specTrimCaseEq (a b : List Char) : Prop :=
  pyLower (pyStrip a) = pyLower (pyStrip b)

/-- The property the specification describes: the expected output occurs as a
case-insensitive substring of the submitted answer. -/
def specSubstrCI (answer expected : List Char) : Prop :=
  ∃ l1 l2, pyLower answer = l1 ++ pyLower expected ++ l2

/-- The test-case check of the coding-question loop. -/
def checkTc (user_code : List Char) (tc : TestCase) : Bool :=
  strContains (pyLower user_code) (pyLower tc.expected_output)

/-- Course `c1` has quiz `q1` whose single question has the unknown stored
type `essay`. -/
def dbC9 : Db :=
  { quizzes := [⟨"q1".toList, "c1".toList, 50⟩]
    quiz_questions :=
      [⟨"ques1".toList, "q1".toList, "essay".toList, "x".toList, []⟩]
    user_quiz_completions := []
    enrollments := [] }

/-- Course `c1` with quiz `q1` of three multiple-choice questions; `u1`
answers exactly one of them correctly. -/
def dbC5 : Db :=
  { quizzes := [⟨"q1".toList, "c1".toList, 30⟩]
    quiz_questions :=
      [⟨"qa".toList, "q1".toList, "multiple_choice".toList, "a".toList, []⟩,
       ⟨"qb".toList, "q1".toList, "multiple_choice".toList, "b".toList, []⟩,
       ⟨"qc".toList, "q1".toList, "multiple_choice".toList, "c".toList, []⟩]
    user_quiz_completions := []
    enrollments := [] }

/-- The attempt numbers recorded for a `(user, quiz)` pair, in insertion
order. -/
def attemptNumbersOf (u q : List Char) (db : Db) : List ℕ :=
  (db.user_quiz_completions.filter fun cc =>
    cc.user_id == u && cc.quiz_id == q).map (·.attempt_number)

/-- One sequential quiz submission as seen by the AttemptRecorder: the
grading outcome is arbitrary data. -/
structure SubmitOp where
  user : List Char
  quiz : List Char
  score : ℚ
  passed : Bool
  dr : List DetailedResult
  now : ℤ

/-- Record one attempt through `create_quiz_completion`. -/
def applyOp (db : Db) (op : SubmitOp) : Db :=
  (create_quiz_completion op.user op.quiz op.score op.passed op.dr op.now db).2

/-- Record a sequence of attempts, in order. -/
def applyOps (ops : List SubmitOp) (db : Db) : Db :=
  ops.foldl applyOp db

/-- Quiz `q1` with one recorded attempt by `u1`. -/
def dbC10 : Db :=
  { quizzes := [⟨"q1".toList, "c1".toList, 50⟩]
    quiz_questions := []
    user_quiz_completions := [⟨"u1".toList, "q1".toList, 80, 1, true, [], 0⟩]
    enrollments := [] }

/-- There is an active late approval for the pair: one whose `approved_until`
is strictly after `now`. -/
def activeApprovalExists (u a : List Char) (now : ℤ) (db : AsgDb) : Prop :=
  ∃ ap ∈ db.late_approvals,
    ap.user_id = u ∧ ap.assignment_id = a ∧ now < ap.approved_until

/-- The empty submission store. -/
def emptyAsgDb : AsgDb := ⟨[], []⟩

/-! ## Theorems -/

/-- Helper for evaluating `pyRoundHalfEven` at concrete values (round-down case). -/
theorem pyRoundHalfEven_of_lt {q : ℚ} {f : ℤ} (h1 : (f : ℚ) ≤ q) (h2 : q - f < 1/2) :
    pyRoundHalfEven q = f := by
  have hf : ⌊q⌋ = f := Int.floor_eq_iff.mpr ⟨h1, by linarith⟩
  simp only [pyRoundHalfEven, hf]
  rw [if_pos h2]

/-- Helper for evaluating `pyRoundHalfEven` at concrete values (round-up case). -/
theorem pyRoundHalfEven_of_gt {q : ℚ} {f : ℤ} (h2 : 1/2 < q - f)
    (h3 : q < f + 1) : pyRoundHalfEven q = f + 1 := by
  have hf : ⌊q⌋ = f := Int.floor_eq_iff.mpr ⟨by linarith, h3⟩
  have hn : ¬ (q - (f : ℚ) < 1/2) := by linarith
  simp only [pyRoundHalfEven, hf]
  rw [if_neg hn, if_pos h2]

/-- Rounding fixes integers: `pyRoundHalfEven` of an integer is itself. -/
theorem pyRoundHalfEven_intCast (n : ℤ) : pyRoundHalfEven (n : ℚ) = n := by
  apply pyRoundHalfEven_of_lt (le_refl _)
  norm_num

/-- Unfolding helper for `round2`. -/
theorem round2_eq {q : ℚ} {f : ℤ} (h : pyRoundHalfEven (q * 100) = f) :
    round2 q = (f : ℚ) / 100 := by
  rw [round2, h]

/-- Rounding fixes integers: `round2` of an integer is itself. -/
theorem round2_intCast (n : ℤ) : round2 (n : ℚ) = n := by
  rw [round2_eq (f := n * 100)]
  · push_cast
    rw [mul_div_assoc]
    norm_num
  · rw [show ((n : ℚ) * 100) = ((n * 100 : ℤ) : ℚ) by push_cast; ring]
    exact pyRoundHalfEven_intCast _

theorem find?_updateFirst {p : α → Bool} {f : α → α}
    (hpf : ∀ a, p a = true → p (f a) = true) :
    ∀ l : List α, List.find? p (updateFirst p f l) = (List.find? p l).map f := by
  intro l
  induction l with
  | nil => rfl
  | cons a l ih =>
      cases hpa : p a with
      | true =>
          simp [updateFirst, hpa, List.find?_cons, hpf a hpa]
      | false =>
          simp [updateFirst, hpa, List.find?_cons, ih]

theorem updateFirst_append_of_none {p : α → Bool} {f : α → α} {l : List α}
    (h : List.find? p l = none) (l' : List α) :
    updateFirst p f (l ++ l') = l ++ updateFirst p f l' := by
  induction l with
  | nil => rfl
  | cons a l ih =>
      rw [List.find?_cons] at h
      cases hpa : p a with
      | true => simp [hpa] at h
      | false =>
          rw [hpa] at h
          simp [updateFirst, hpa, ih h]

theorem find?_append_of_none {p : α → Bool} {l : List α}
    (h : List.find? p l = none) (l' : List α) :
    List.find? p (l ++ l') = List.find? p l' := by
  induction l with
  | nil => rfl
  | cons a l ih =>
      rw [List.find?_cons] at h
      cases hpa : p a with
      | true => simp [hpa] at h
      | false =>
          rw [hpa] at h
          simp [List.find?_cons, hpa, ih h]

theorem matchEnroll_setProgress (u c : List Char) (pr : ℚ) (st : List Char) (now : ℤ)
    (e : EnrollmentDoc) : matchEnroll u c (setProgress pr st now e) = matchEnroll u c e :=
  rfl

theorem get_course_progress_fst (u c : List Char) (now : ℤ) (db : Db) :
    (get_course_progress u c now db).1 =
      { user_id := u
        course_id := c
        overall_progress := round2 (overallOf u c db)
        lesson_progress := round2 (lessonOf u c db)
        quiz_progress := round2 (quizProgressOf u c db)
        completed_quizzes := completionCountOf u c db
        total_quizzes := totalQuizzesOf c db
        status := statusOf (overallOf u c db) } := by
  cases h : db.enrollments.find? (matchEnroll u c) with
  | some e =>
      simp [get_course_progress, ensureEnrollment, h, overallOf, lessonOf,
        quizProgressOf, completionCountOf, totalQuizzesOf, courseQuizzes, statusOf]
  | none =>
      simp [get_course_progress, ensureEnrollment, h, overallOf, lessonOf,
        quizProgressOf, completionCountOf, totalQuizzesOf, courseQuizzes, statusOf]

theorem get_course_progress_quizzes (u c : List Char) (now : ℤ) (db : Db) :
    (get_course_progress u c now db).2.quizzes = db.quizzes := by
  cases h : db.enrollments.find? (matchEnroll u c) with
  | some e => simp [get_course_progress, ensureEnrollment, h]
  | none => simp [get_course_progress, ensureEnrollment, h]

theorem get_course_progress_questions (u c : List Char) (now : ℤ) (db : Db) :
    (get_course_progress u c now db).2.quiz_questions = db.quiz_questions := by
  cases h : db.enrollments.find? (matchEnroll u c) with
  | some e => simp [get_course_progress, ensureEnrollment, h]
  | none => simp [get_course_progress, ensureEnrollment, h]

theorem get_course_progress_completions (u c : List Char) (now : ℤ) (db : Db) :
    (get_course_progress u c now db).2.user_quiz_completions =
      db.user_quiz_completions := by
  cases h : db.enrollments.find? (matchEnroll u c) with
  | some e => simp [get_course_progress, ensureEnrollment, h]
  | none => simp [get_course_progress, ensureEnrollment, h]

theorem matchEnroll_of_setProgress (u c : List Char) (pr : ℚ) (st : List Char) (now : ℤ) :
    ∀ e, matchEnroll u c e = true → matchEnroll u c (setProgress pr st now e) = true := by
  intro e he
  rw [matchEnroll_setProgress]
  exact he

/-- After a recompute, the stored `progress_percentage` of the `(user, course)`
enrollment is the freshly computed overall progress. -/
theorem lessonOf_after (u c : List Char) (now : ℤ) (db : Db) :
    lessonOf u c (get_course_progress u c now db).2 = overallOf u c db := by
  cases h : db.enrollments.find? (matchEnroll u c) with
  | some e =>
      simp only [get_course_progress, ensureEnrollment, h, lessonOf]
      rw [find?_updateFirst (matchEnroll_of_setProgress u c _ _ now), h]
      simp [setProgress, overallOf, lessonOf, h, quizProgressOf, totalQuizzesOf,
        completionCountOf, courseQuizzes]
  | none =>
      simp only [get_course_progress, ensureEnrollment, h, lessonOf]
      rw [updateFirst_append_of_none h, find?_append_of_none h]
      have hmatch : matchEnroll u c
          ⟨u, c, 0, "in_progress".toList, now, now⟩ = true := by
        simp [matchEnroll]
      simp only [updateFirst, hmatch, if_pos]
      rw [List.find?_cons]
      rw [matchEnroll_setProgress, hmatch]
      simp [setProgress, overallOf, lessonOf, h, quizProgressOf, totalQuizzesOf,
        completionCountOf, courseQuizzes]

theorem totalQuizzesOf_congr {db db' : Db} (hq : db'.quizzes = db.quizzes)
    (c : List Char) : totalQuizzesOf c db' = totalQuizzesOf c db := by
  simp [totalQuizzesOf, courseQuizzes, hq]

theorem quizProgressOf_congr {db db' : Db} (hq : db'.quizzes = db.quizzes)
    (hc : db'.user_quiz_completions = db.user_quiz_completions) (u c : List Char) :
    quizProgressOf u c db' = quizProgressOf u c db := by
  simp [quizProgressOf, totalQuizzesOf, completionCountOf, courseQuizzes, hq, hc]

/-- Rounding fixes naturals: `round2` of a natural number is itself. -/
theorem round2_nat (n : ℕ) : round2 (n : ℚ) = n := by
  have := round2_intCast n
  push_cast at this
  exact this

/-- Claim C1, counterexample: with two quizzes of which only one was ever
attempted (twice), the recompute reports quiz progress 100, while the claimed
distinct-quiz formula yields 50: every completion record counts, not every
distinct quiz. -/
theorem quiz_progress_distinct_counterexample :
    (get_course_progress "u1".toList "c1".toList 0 dbC1).1.quiz_progress = 100
    ∧ round2 (specQuizProgress "u1".toList "c1".toList dbC1) = 50
    ∧ (100 : ℚ) ≠ 50 := by
  have h1 : completionCountOf "u1".toList "c1".toList dbC1 = 2 := by rfl
  have h2 : totalQuizzesOf "c1".toList dbC1 = 2 := by rfl
  have h3 : specDistinctCompleted "u1".toList "c1".toList dbC1 = 1 := by rfl
  have hqp : quizProgressOf "u1".toList "c1".toList dbC1 = 100 := by
    rw [quizProgressOf, h1, h2]
    norm_num [min_def]
  have hsp : specQuizProgress "u1".toList "c1".toList dbC1 = 50 := by
    rw [specQuizProgress, h3, h2]
    norm_num [min_def]
  refine ⟨?_, ?_, by norm_num⟩
  · rw [get_course_progress_fst]
    show round2 (quizProgressOf "u1".toList "c1".toList dbC1) = 100
    rw [hqp]
    have := round2_nat 100
    push_cast at this
    exact this
  · rw [hsp]
    have := round2_nat 50
    push_cast at this
    exact this

/-- Claim C1 (amended): for every user and course, the quiz-progress figure
returned by the recompute equals `min(100, (completionRecords / totalQuizzes)
* 100)` rounded to two decimals when the course has quizzes, and 0 otherwise,
where `completionRecords` counts every recorded attempt of the user against
the course's quizzes — a quiz attempted several times contributes one record
per attempt, so repeated attempts inflate the figure (up to the cap of 100)
rather than contributing at most one completed quiz. -/
theorem quiz_progress_counts_records (u c : List Char) (now : ℤ) (db : Db) :
    (get_course_progress u c now db).1.quiz_progress =
      round2 (if 0 < totalQuizzesOf c db then
          min 100 ((completionCountOf u c db : ℚ) / (totalQuizzesOf c db : ℚ) * 100)
        else 0) := by
  rw [get_course_progress_fst]
  rfl

/-- Claim C2, counterexample: with one (unattempted) quiz and stored progress
100, the first recompute returns 50 and the second returns 25 — the second
call re-reads the overall progress written by the first as its lesson
progress, so recomputing twice with unchanged quizzes and completions is not
idempotent. -/
theorem recompute_not_idempotent_counterexample :
    ((get_course_progress "u1".toList "c1".toList 0 dbC2).1).overall_progress = 50
    ∧ ((get_course_progress "u1".toList "c1".toList 1
        (get_course_progress "u1".toList "c1".toList 0 dbC2).2).1).overall_progress = 25
    ∧ (50 : ℚ) ≠ 25 := by
  have hq : ((get_course_progress "u1".toList "c1".toList 0 dbC2).2).quizzes
      = dbC2.quizzes := get_course_progress_quizzes _ _ _ _
  have hc : ((get_course_progress "u1".toList "c1".toList 0 dbC2).2).user_quiz_completions
      = dbC2.user_quiz_completions := get_course_progress_completions _ _ _ _
  have hqp : quizProgressOf "u1".toList "c1".toList dbC2 = 0 := by
    have h1 : completionCountOf "u1".toList "c1".toList dbC2 = 0 := by rfl
    have h2 : totalQuizzesOf "c1".toList dbC2 = 1 := by rfl
    rw [quizProgressOf, h1, h2]
    norm_num [min_def]
  have hL : lessonOf "u1".toList "c1".toList dbC2 = 100 := by rfl
  have hT : totalQuizzesOf "c1".toList dbC2 = 1 := by rfl
  have hov : overallOf "u1".toList "c1".toList dbC2 = 50 := by
    rw [overallOf, hT, hL, hqp]
    norm_num [min_def]
  have hl1 : lessonOf "u1".toList "c1".toList
      ((get_course_progress "u1".toList "c1".toList 0 dbC2).2) = 50 := by
    rw [lessonOf_after, hov]
  have hqp1 : quizProgressOf "u1".toList "c1".toList
      ((get_course_progress "u1".toList "c1".toList 0 dbC2).2) = 0 := by
    rw [quizProgressOf_congr hq hc, hqp]
  have hT1 : totalQuizzesOf "c1".toList
      ((get_course_progress "u1".toList "c1".toList 0 dbC2).2) = 1 := by
    rw [totalQuizzesOf_congr hq, hT]
  have hov1 : overallOf "u1".toList "c1".toList
      ((get_course_progress "u1".toList "c1".toList 0 dbC2).2) = 25 := by
    rw [overallOf, hT1, hl1, hqp1]
    norm_num [min_def]
  refine ⟨?_, ?_, by norm_num⟩
  · rw [get_course_progress_fst]
    show round2 (overallOf "u1".toList "c1".toList dbC2) = 50
    rw [hov]
    have := round2_nat 50
    push_cast at this
    exact this
  · rw [get_course_progress_fst]
    show round2 (overallOf "u1".toList "c1".toList
      ((get_course_progress "u1".toList "c1".toList 0 dbC2).2)) = 25
    rw [hov1]
    have := round2_nat 25
    push_cast at this
    exact this

/-- Claim C2 (amended): when the course has no quizzes, recomputing twice
with no underlying change yields the same `overall_progress` from the second
call as from the first, and leaves the enrollment's stored
`progress_percentage` at the same value. (With quizzes the recompute is not
idempotent, because the overall progress written by the first call is re-read
as the lesson progress of the second.) -/
theorem recompute_idempotent_of_no_quizzes (u c : List Char) (n1 n2 : ℤ) (db : Db)
    (h : totalQuizzesOf c db = 0) :
    ((get_course_progress u c n2 (get_course_progress u c n1 db).2).1).overall_progress
        = ((get_course_progress u c n1 db).1).overall_progress
    ∧ lessonOf u c (get_course_progress u c n2 (get_course_progress u c n1 db).2).2
        = lessonOf u c (get_course_progress u c n1 db).2 := by
  have hq : ((get_course_progress u c n1 db).2).quizzes = db.quizzes :=
    get_course_progress_quizzes _ _ _ _
  have ht1 : totalQuizzesOf c ((get_course_progress u c n1 db).2) = 0 := by
    rw [totalQuizzesOf_congr hq, h]
  have hl1 : lessonOf u c ((get_course_progress u c n1 db).2) = overallOf u c db :=
    lessonOf_after _ _ _ _
  have hov : overallOf u c db = min 100 (lessonOf u c db) := by
    rw [overallOf, h]
    simp
  have hov1 : overallOf u c ((get_course_progress u c n1 db).2)
      = overallOf u c db := by
    rw [overallOf, ht1]
    simp only [lt_irrefl, if_neg, if_false]
    rw [hl1, hov, ← min_assoc, min_self]
  constructor
  · rw [get_course_progress_fst, get_course_progress_fst]
    show round2 (overallOf u c ((get_course_progress u c n1 db).2))
      = round2 (overallOf u c db)
    rw [hov1]
  · rw [lessonOf_after, hov1, hl1]

/-- Witness for `recompute_idempotent_of_no_quizzes` at a concrete database. -/
theorem recompute_idempotent_of_no_quizzes_witness :
    ((get_course_progress "u1".toList "c1".toList 1
        (get_course_progress "u1".toList "c1".toList 0 dbC2w).2).1).overall_progress
      = ((get_course_progress "u1".toList "c1".toList 0 dbC2w).1).overall_progress
    ∧ lessonOf "u1".toList "c1".toList
        (get_course_progress "u1".toList "c1".toList 1
          (get_course_progress "u1".toList "c1".toList 0 dbC2w).2).2
      = lessonOf "u1".toList "c1".toList
          (get_course_progress "u1".toList "c1".toList 0 dbC2w).2 :=
  recompute_idempotent_of_no_quizzes "u1".toList "c1".toList 0 1 dbC2w (by rfl)

/-- Claim C3, counterexample: recompute for a `(user, course)` pair with no
enrollment creates the enrollment with lifecycle status `in_progress`, not the
claimed `not_started`. -/
theorem enrollment_created_in_progress :
    (ensureEnrollment "u1".toList "c1".toList 0 emptyDb).1.status = "in_progress".toList
    ∧ "in_progress".toList ≠ "not_started".toList := by
  exact ⟨rfl, by decide⟩

/-- Claim C3 (amended): for every user and course with no existing enrollment
record, the recompute first creates an enrollment whose progress is 0 — but
whose lifecycle status is `in_progress`, not `not_started` — by appending it
to the store, and only then proceeds with the computation, which consequently
uses lesson progress 0. (The status written back at the end of the same call
then follows the lifecycle rule on the computed overall progress.) -/
theorem enrollment_autocreated_on_recompute (u c : List Char) (now : ℤ) (db : Db)
    (h : db.enrollments.find? (matchEnroll u c) = none) :
    (ensureEnrollment u c now db).1.progress_percentage = 0
    ∧ (ensureEnrollment u c now db).1.status = "in_progress".toList
    ∧ (ensureEnrollment u c now db).2.enrollments
        = db.enrollments ++ [(ensureEnrollment u c now db).1]
    ∧ (get_course_progress u c now db).1.lesson_progress = 0 := by
  refine ⟨?_, ?_, ?_, ?_⟩
  · simp [ensureEnrollment, h]
  · simp [ensureEnrollment, h]
  · simp [ensureEnrollment, h]
  · rw [get_course_progress_fst]
    show round2 (lessonOf u c db) = 0
    rw [lessonOf, h]
    have := round2_nat 0
    push_cast at this
    exact this

/-- Witness for `enrollment_autocreated_on_recompute` at the empty database. -/
theorem enrollment_autocreated_on_recompute_witness :
    (ensureEnrollment "u1".toList "c1".toList 0 emptyDb).1.progress_percentage = 0
    ∧ (ensureEnrollment "u1".toList "c1".toList 0 emptyDb).1.status = "in_progress".toList
    ∧ (ensureEnrollment "u1".toList "c1".toList 0 emptyDb).2.enrollments
        = emptyDb.enrollments ++ [(ensureEnrollment "u1".toList "c1".toList 0 emptyDb).1]
    ∧ (get_course_progress "u1".toList "c1".toList 0 emptyDb).1.lesson_progress = 0 :=
  enrollment_autocreated_on_recompute "u1".toList "c1".toList 0 emptyDb (by rfl)

/-- Claim C4, counterexample: `" true"` and `"true"` are equal after trimming
and case folding, yet `grade_true_false` grades them as not correct — the
true/false comparison does not trim whitespace. -/
theorem true_false_no_trim_counterexample :
    grade_true_false " true".toList "true".toList = false
    ∧ specTrimCaseEq " true".toList "true".toList
    ∧ ¬ ((grade_true_false " true".toList "true".toList = true)
          ↔ specTrimCaseEq " true".toList "true".toList) := by
  refine ⟨by decide, ?_, ?_⟩
  · show pyLower (pyStrip " true".toList) = pyLower (pyStrip "true".toList)
    decide
  · intro hiff
    have : grade_true_false " true".toList "true".toList = true := by
      apply hiff.mpr
      show pyLower (pyStrip " true".toList) = pyLower (pyStrip "true".toList)
      decide
    simp at this
    exact absurd this (by decide)

/-- Claim C4 (amended): a `multiple_choice` question is graded correct iff the
two answers are equal after trimming surrounding whitespace and ignoring
letter case; a `true_false` question is graded correct iff the two answers are
equal ignoring letter case only — surrounding whitespace is NOT trimmed. In
both cases the outcome is a plain Boolean: there is no partial credit. -/
theorem choice_grading_characterization (u c : List Char) :
    (grade_multiple_choice u c = true ↔ specTrimCaseEq u c)
    ∧ (grade_true_false u c = true ↔ pyLower u = pyLower c) := by
  constructor
  · simp [grade_multiple_choice, specTrimCaseEq]
  · simp [grade_true_false]

theorem hasPfx_iff (pre hay : List Char) :
    hasPfx pre hay = true ↔ ∃ t, hay = pre ++ t := by
  induction pre generalizing hay with
  | nil => simp [hasPfx]
  | cons a pre ih =>
      cases hay with
      | nil => simp [hasPfx]
      | cons b hay =>
          simp only [hasPfx, Bool.and_eq_true, beq_iff_eq, ih, List.cons_append,
            List.cons.injEq]
          constructor
          · rintro ⟨rfl, t, rfl⟩
            exact ⟨t, rfl, rfl⟩
          · rintro ⟨t, rfl, rfl⟩
            exact ⟨rfl, t, rfl⟩

theorem strContains_iff (hay needle : List Char) :
    strContains hay needle = true ↔ ∃ l1 l2, hay = l1 ++ needle ++ l2 := by
  rw [strContains, List.any_eq_true]
  constructor
  · rintro ⟨i, _, hp⟩
    obtain ⟨t, ht⟩ := (hasPfx_iff _ _).mp hp
    refine ⟨hay.take i, t, ?_⟩
    conv_lhs => rw [← List.take_append_drop i hay]
    rw [ht, List.append_assoc]
  · rintro ⟨l1, l2, rfl⟩
    refine ⟨l1.length, ?_, ?_⟩
    · rw [List.mem_range]
      simp only [List.append_assoc, List.length_append]
      omega
    · rw [List.append_assoc, List.drop_left]
      exact (hasPfx_iff _ _).mpr ⟨l2, rfl⟩

theorem codingFold_count (user_code : List Char) :
    ∀ (tcs : List TestCase) (n : ℕ) (ds : List TestDetail),
      (tcs.foldl (codingStep user_code) (n, ds)).1
        = n + (tcs.filter (checkTc user_code)).length := by
  intro tcs
  induction tcs with
  | nil => intro n ds; simp
  | cons tc tcs ih =>
      intro n ds
      rw [List.foldl_cons, List.filter_cons]
      cases hc : checkTc user_code tc with
      | true =>
          simp only [codingStep, checkTc] at *
          rw [hc] at *
          simp [ih, Nat.add_assoc, Nat.add_comm 1]
      | false =>
          simp only [codingStep, checkTc] at *
          rw [hc] at *
          simp [ih]

theorem filter_length_eq_iff {p : α → Bool} {l : List α} :
    (l.filter p).length = l.length ↔ ∀ a ∈ l, p a = true := by
  induction l with
  | nil => simp
  | cons a l ih =>
      rw [List.filter_cons]
      cases hpa : p a with
      | true => simp [hpa, ih]
      | false =>
          rw [if_neg (by simp [hpa])]
          simp only [List.length_cons]
          constructor
          · intro h
            exfalso
            have hle : (l.filter p).length ≤ l.length := l.length_filter_le p
            omega
          · intro h
            have := h a (List.mem_cons_self a l)
            simp [hpa] at this

/-- Claim C8: for a coding question with a non-empty test-case list, a test
case succeeds iff its expected-output string occurs as a case-insensitive
substring of the submitted answer; the result is `passed` iff every test case
succeeds; the score is `(succeeded / total) * 100`; and with an empty
test-case list the score is 0. -/
theorem coding_grading_characterization (user_code : List Char)
    (tcs : List TestCase) (h : tcs ≠ []) :
    ((grade_coding_question user_code tcs).passed = true
      ↔ ∀ tc ∈ tcs, specSubstrCI user_code tc.expected_output)
    ∧ (grade_coding_question user_code tcs).score =
        ((tcs.filter (checkTc user_code)).length : ℚ) / (tcs.length : ℚ) * 100
    ∧ (∀ tc ∈ tcs, (checkTc user_code tc = true ↔ specSubstrCI user_code tc.expected_output))
    ∧ (grade_coding_question user_code []).score = 0 := by
  have hcount := codingFold_count user_code tcs 0 []
  refine ⟨?_, ?_, ?_, by simp [grade_coding_question]⟩
  · show ((tcs.foldl (codingStep user_code) (0, [])).1 == tcs.length) = true ↔ _
    rw [beq_iff_eq, hcount, Nat.zero_add, filter_length_eq_iff]
    constructor
    · intro hall tc htc
      exact (strContains_iff _ _).mp (hall tc htc)
    · intro hall tc htc
      exact (strContains_iff _ _).mpr (hall tc htc)
  · show (if 0 < tcs.length then
        ((tcs.foldl (codingStep user_code) (0, [])).1 : ℚ) / (tcs.length : ℚ) * 100
      else 0) = _
    rw [hcount, Nat.zero_add, if_pos (List.length_pos.mpr h)]
  · intro tc _
    exact strContains_iff _ _

/-- Witness for `coding_grading_characterization`: a concrete submission
against one test case. -/
theorem coding_grading_characterization_witness :
    ((grade_coding_question "print(42)".toList [⟨"".toList, "42".toList⟩]).passed = true
      ↔ ∀ tc ∈ [(⟨"".toList, "42".toList⟩ : TestCase)],
          specSubstrCI "print(42)".toList tc.expected_output)
    ∧ (grade_coding_question "print(42)".toList [⟨"".toList, "42".toList⟩]).score =
        (([(⟨"".toList, "42".toList⟩ : TestCase)].filter
            (checkTc "print(42)".toList)).length : ℚ)
          / (([(⟨"".toList, "42".toList⟩ : TestCase)] : List TestCase).length : ℚ) * 100
    ∧ (∀ tc ∈ [(⟨"".toList, "42".toList⟩ : TestCase)],
        (checkTc "print(42)".toList tc = true
          ↔ specSubstrCI "print(42)".toList tc.expected_output))
    ∧ (grade_coding_question "print(42)".toList []).score = 0 :=
  coding_grading_characterization "print(42)".toList [⟨"".toList, "42".toList⟩]
    (by decide)

/-- Claim C9 (amended): for a question whose stored type is none of
`multiple_choice`, `true_false`, `coding`, and which has a submitted answer,
grading never raises past the boundary: `grade_question` returns the
fail-closed dict `{'correct': False, 'details': 'Unknown question type'}`, and
the submission loop leaves both the correct count and the recorded results
exactly as if the question were absent — it contributes 0 to `correct_count`
while still counting in the total (the score denominator is the full question
list), but, contrary to the claim, NO per-question entry is appended to the
attempt's `detailed_results` for it. -/
theorem unknown_type_fails_closed_without_entry (q : QuestionDoc)
    (answers : List (List Char × List Char)) (user_answer : List Char)
    (l1 l2 : List QuestionDoc)
    (h1 : q.question_type ≠ "multiple_choice".toList)
    (h2 : q.question_type ≠ "true_false".toList)
    (h3 : q.question_type ≠ "coding".toList)
    (ha : answersGet answers q.id = some user_answer) :
    grade_question q.question_type user_answer q.correct_answer q.test_cases
        = .choice false (some "Unknown question type".toList)
    ∧ gradeQuestions (l1 ++ q :: l2) answers = gradeQuestions (l1 ++ l2) answers := by
  have hb1 : (q.question_type == "multiple_choice".toList) = false := by
    rw [beq_eq_false_iff_ne]
    exact h1
  have hb2 : (q.question_type == "true_false".toList) = false := by
    rw [beq_eq_false_iff_ne]
    exact h2
  have hb3 : (q.question_type == "coding".toList) = false := by
    rw [beq_eq_false_iff_ne]
    exact h3
  have hstep : ∀ acc, gradeStep answers acc q = acc := by
    intro acc
    simp only [gradeStep, ha, hb1, hb2, hb3, Bool.or_false, Bool.false_eq_true,
      if_false]
  constructor
  · simp only [grade_question, hb1, hb2, hb3, Bool.false_eq_true, if_false]
  · rw [gradeQuestions, gradeQuestions, List.foldl_append, List.foldl_append,
      List.foldl_cons, hstep]

/-- Witness for `unknown_type_fails_closed_without_entry` at concrete data. -/
theorem unknown_type_fails_closed_without_entry_witness :
    grade_question "essay".toList "hi".toList "x".toList []
        = .choice false (some "Unknown question type".toList)
    ∧ gradeQuestions
        ([] ++ (⟨"ques1".toList, "q1".toList, "essay".toList, "x".toList, []⟩ : QuestionDoc)
            :: []) [("ques1".toList, "hi".toList)]
      = gradeQuestions ([] ++ []) [("ques1".toList, "hi".toList)] :=
  unknown_type_fails_closed_without_entry
    ⟨"ques1".toList, "q1".toList, "essay".toList, "x".toList, []⟩
    [("ques1".toList, "hi".toList)] "hi".toList [] []
    (by decide) (by decide) (by decide) (by decide)

/-- Claim C9, counterexample: submitting an answer for the single
`essay`-typed question succeeds (no error is raised), the question counts in
the denominator (score 0 out of 1 question), but the attempt's recorded
`detailed_results` list is empty — no `incorrect`/`failed` entry is recorded,
contradicting the claim that the per-question entry carries such an outcome. -/
theorem unknown_type_no_entry_counterexample :
    ((submit_quiz "q1".toList [("ques1".toList, "hi".toList)] "u1".toList 0
        dbC9).toOption).map
        (fun p => (p.1.detailed_results, p.1.score, p.1.passed))
      = some ([], 0, false) := by
  have hfind : dbC9.quizzes.find? (fun q => q.id == "q1".toList)
      = some ⟨"q1".toList, "c1".toList, 50⟩ := by decide
  have hg : gradeQuestions
      [⟨"ques1".toList, "q1".toList, "essay".toList, "x".toList, []⟩]
      [("ques1".toList, "hi".toList)] = (0, []) := by decide
  have hscore : ((0 : ℕ) : ℚ)
      / (([(⟨"ques1".toList, "q1".toList, "essay".toList, "x".toList, []⟩ :
          QuestionDoc)] : List QuestionDoc).length : ℚ) * 100 = 0 := by
    norm_num
  have hr2 : round2 (0 : ℚ) = 0 := by
    have := round2_nat 0
    push_cast at this
    exact this
  have hpassed : (decide ((50 : ℚ) ≤ 0)) = false := by
    rw [decide_eq_false]
    norm_num
  simp only [submit_quiz, hfind]
  have hqs : dbC9.quiz_questions.filter (fun qq => qq.quiz_id == "q1".toList)
      = [⟨"ques1".toList, "q1".toList, "essay".toList, "x".toList, []⟩] := by decide
  rw [hqs]
  simp only [List.isEmpty_cons, Bool.false_eq_true, if_false, submitCore, hg,
    Except.toOption, Option.map_some]
  simp only [hscore, hr2, hpassed]
  rfl

theorem update_course_progress_after_quiz_completions (u qid : List Char) (now : ℤ)
    (db : Db) :
    (update_course_progress_after_quiz u qid now db).2.user_quiz_completions
      = db.user_quiz_completions := by
  rw [update_course_progress_after_quiz]
  cases h : db.quizzes.find? (fun q => q.id == qid) with
  | none => rfl
  | some quiz => simp [get_course_progress_completions]

/-- Claim C5 (amended): for a submission over a quiz with `N ≥ 1` questions of
which `correct_count` are graded correct, the score *reported* equals
`(correct_count / N) * 100` rounded to 2 decimal places, but the score
*stored* in the attempt record is the exact unrounded value
`(correct_count / N) * 100`, and the attempt's `passed` flag is true iff the
*unrounded* score is greater than or equal to the quiz's passing score. -/
theorem submit_score_reported_vs_stored (quiz : QuizDoc)
    (questions : List QuestionDoc) (answers : List (List Char × List Char))
    (user_id : List Char) (now : ℤ) (db : Db) (_h : questions ≠ []) :
    (submitCore quiz questions answers user_id now db).1.score
        = round2 (((gradeQuestions questions answers).1 : ℚ)
            / (questions.length : ℚ) * 100)
    ∧ (submitCore quiz questions answers user_id now db).2.user_quiz_completions
        = db.user_quiz_completions ++
          [{ user_id := user_id
             quiz_id := quiz.id
             score := ((gradeQuestions questions answers).1 : ℚ)
               / (questions.length : ℚ) * 100
             attempt_number := (db.user_quiz_completions.filter fun cc =>
               cc.user_id == user_id && cc.quiz_id == quiz.id).length + 1
             passed := decide (quiz.passing_score
               ≤ ((gradeQuestions questions answers).1 : ℚ)
                   / (questions.length : ℚ) * 100)
             detailed_results := (gradeQuestions questions answers).2
             completed_at := now }]
    ∧ ((submitCore quiz questions answers user_id now db).1.passed = true
        ↔ quiz.passing_score ≤ ((gradeQuestions questions answers).1 : ℚ)
            / (questions.length : ℚ) * 100) := by
  refine ⟨rfl, ?_, ?_⟩
  · show (update_course_progress_after_quiz user_id quiz.id now
        (create_quiz_completion user_id quiz.id _ _ _ now db).2).2.user_quiz_completions
      = _
    rw [update_course_progress_after_quiz_completions]
    rfl
  · show (decide (quiz.passing_score ≤ _) = true) ↔ _
    rw [decide_eq_true_iff]

/-- Witness for `submit_score_reported_vs_stored`: one multiple-choice
question answered correctly. -/
theorem submit_score_reported_vs_stored_witness :
    (submitCore ⟨"q1".toList, "c1".toList, 30⟩
        [⟨"ques1".toList, "q1".toList, "multiple_choice".toList, "a".toList, []⟩]
        [("ques1".toList, "a".toList)] "u1".toList 0 emptyDb).1.score
        = round2 (((gradeQuestions
              [⟨"ques1".toList, "q1".toList, "multiple_choice".toList, "a".toList, []⟩]
              [("ques1".toList, "a".toList)]).1 : ℚ)
            / (([⟨"ques1".toList, "q1".toList, "multiple_choice".toList, "a".toList,
                []⟩] : List QuestionDoc).length : ℚ) * 100)
    ∧ (submitCore ⟨"q1".toList, "c1".toList, 30⟩
        [⟨"ques1".toList, "q1".toList, "multiple_choice".toList, "a".toList, []⟩]
        [("ques1".toList, "a".toList)] "u1".toList 0 emptyDb).2.user_quiz_completions
        = emptyDb.user_quiz_completions ++
          [{ user_id := "u1".toList
             quiz_id := (⟨"q1".toList, "c1".toList, 30⟩ : QuizDoc).id
             score := ((gradeQuestions
                 [⟨"ques1".toList, "q1".toList, "multiple_choice".toList, "a".toList, []⟩]
                 [("ques1".toList, "a".toList)]).1 : ℚ)
               / (([⟨"ques1".toList, "q1".toList, "multiple_choice".toList, "a".toList,
                   []⟩] : List QuestionDoc).length : ℚ) * 100
             attempt_number := (emptyDb.user_quiz_completions.filter fun cc =>
               cc.user_id == "u1".toList
                 && cc.quiz_id == (⟨"q1".toList, "c1".toList, 30⟩ : QuizDoc).id).length + 1
             passed := decide ((⟨"q1".toList, "c1".toList, 30⟩ : QuizDoc).passing_score
               ≤ ((gradeQuestions
                     [⟨"ques1".toList, "q1".toList, "multiple_choice".toList, "a".toList, []⟩]
                     [("ques1".toList, "a".toList)]).1 : ℚ)
                   / (([⟨"ques1".toList, "q1".toList, "multiple_choice".toList,
                       "a".toList, []⟩] : List QuestionDoc).length : ℚ) * 100)
             detailed_results := (gradeQuestions
                 [⟨"ques1".toList, "q1".toList, "multiple_choice".toList, "a".toList, []⟩]
                 [("ques1".toList, "a".toList)]).2
             completed_at := 0 }]
    ∧ ((submitCore ⟨"q1".toList, "c1".toList, 30⟩
          [⟨"ques1".toList, "q1".toList, "multiple_choice".toList, "a".toList, []⟩]
          [("ques1".toList, "a".toList)] "u1".toList 0 emptyDb).1.passed = true
        ↔ (⟨"q1".toList, "c1".toList, 30⟩ : QuizDoc).passing_score
            ≤ ((gradeQuestions
                  [⟨"ques1".toList, "q1".toList, "multiple_choice".toList, "a".toList, []⟩]
                  [("ques1".toList, "a".toList)]).1 : ℚ)
                / (([⟨"ques1".toList, "q1".toList, "multiple_choice".toList, "a".toList,
                    []⟩] : List QuestionDoc).length : ℚ) * 100) :=
  submit_score_reported_vs_stored ⟨"q1".toList, "c1".toList, 30⟩
    [⟨"ques1".toList, "q1".toList, "multiple_choice".toList, "a".toList, []⟩]
    [("ques1".toList, "a".toList)] "u1".toList 0 emptyDb (by decide)

/-- Claim C5, counterexample: with 1 of 3 questions correct, the response
reports score `33.33` but the attempt record stores the unrounded `100/3` —
the stored score is not the two-decimal rounding the claim asserts. -/
theorem stored_score_unrounded_counterexample :
    ((submit_quiz "q1".toList [("qa".toList, "a".toList)] "u1".toList 0
        dbC5).toOption).map
        (fun p => (p.1.score, p.2.user_quiz_completions.map (fun cc => cc.score)))
      = some (3333/100, [100/3])
    ∧ (3333/100 : ℚ) ≠ 100/3 := by
  constructor
  · have hfind : dbC5.quizzes.find? (fun q => q.id == "q1".toList)
        = some ⟨"q1".toList, "c1".toList, 30⟩ := by decide
    have hqs : dbC5.quiz_questions.filter (fun qq => qq.quiz_id == "q1".toList)
        = dbC5.quiz_questions := by decide
    have hg : gradeQuestions dbC5.quiz_questions [("qa".toList, "a".toList)]
        = (1, [⟨"qa".toList, "multiple_choice".toList, "correct".toList, none⟩,
               ⟨"qb".toList, "multiple_choice".toList, "unanswered".toList, none⟩,
               ⟨"qc".toList, "multiple_choice".toList, "unanswered".toList, none⟩]) := by
      decide
    have hs : ((1 : ℕ) : ℚ) / ((dbC5.quiz_questions.length : ℕ) : ℚ) * 100
        = 100/3 := by
      norm_num [dbC5]
    have hr : round2 (100/3) = 3333/100 := by
      rw [round2_eq (f := 3333) (by apply pyRoundHalfEven_of_lt <;> norm_num)]
      norm_num
    have hie : dbC5.quiz_questions.isEmpty = false := rfl
    simp only [submit_quiz, hfind, hqs]
    simp only [hie, Bool.false_eq_true, if_false, submitCore, hg,
      Except.toOption, Option.map_some']
    simp only [hs, hr]
    rw [update_course_progress_after_quiz_completions]
    rfl
  · norm_num

theorem applyOp_completions (db : Db) (op : SubmitOp) :
    (applyOp db op).user_quiz_completions
      = db.user_quiz_completions ++
        [{ user_id := op.user
           quiz_id := op.quiz
           score := op.score
           attempt_number := (db.user_quiz_completions.filter fun cc =>
             cc.user_id == op.user && cc.quiz_id == op.quiz).length + 1
           passed := op.passed
           detailed_results := op.dr
           completed_at := op.now }] := rfl

theorem attemptNumbers_applyOp (u q : List Char) (db : Db) (op : SubmitOp) :
    attemptNumbersOf u q (applyOp db op)
      = attemptNumbersOf u q db ++
        (if op.user == u && op.quiz == q then
          [(db.user_quiz_completions.filter fun cc =>
             cc.user_id == op.user && cc.quiz_id == op.quiz).length + 1]
         else []) := by
  rw [attemptNumbersOf, applyOp_completions, List.filter_append, List.map_append]
  cases hb : (op.user == u && op.quiz == q) with
  | true => simp [attemptNumbersOf, List.filter_cons, hb]
  | false => simp [attemptNumbersOf, List.filter_cons, hb]

theorem attemptNumbers_applyOps (u q : List Char) :
    ∀ (ops : List SubmitOp) (db : Db) (n : ℕ),
      attemptNumbersOf u q db = List.range' 1 n →
      attemptNumbersOf u q (applyOps ops db)
        = List.range' 1 (n + (ops.filter fun op =>
            op.user == u && op.quiz == q).length) := by
  intro ops
  induction ops with
  | nil =>
      intro db n h
      simpa using h
  | cons op ops ih =>
      intro db n h
      have hlen : (db.user_quiz_completions.filter fun cc =>
          cc.user_id == u && cc.quiz_id == q).length = n := by
        have := congrArg List.length h
        simpa [attemptNumbersOf] using this
      rw [applyOps, List.foldl_cons, List.filter_cons]
      cases hb : (op.user == u && op.quiz == q) with
      | true =>
          have h1 : op.user = u := eq_of_beq ((Bool.and_eq_true _ _).mp hb).1
          have h2 : op.quiz = q := eq_of_beq ((Bool.and_eq_true _ _).mp hb).2
          have hstep : attemptNumbersOf u q (applyOp db op)
              = List.range' 1 (n + 1) := by
            rw [attemptNumbers_applyOp, hb, if_pos rfl, h1, h2, hlen, h,
              List.range'_concat]
            have harith : 1 + 1 * n = n + 1 := by ring
            rw [harith]
          have hrec := ih (applyOp db op) (n + 1) hstep
          rw [applyOps] at hrec
          rw [hrec]
          congr 1
          simp
          omega
      | false =>
          have hstep : attemptNumbersOf u q (applyOp db op)
              = List.range' 1 n := by
            rw [attemptNumbers_applyOp, hb, if_neg Bool.false_ne_true,
              List.append_nil, h]
          have hrec := ih (applyOp db op) n hstep
          rw [applyOps] at hrec
          rw [hrec, if_neg Bool.false_ne_true]

/-- Claim C6: starting from a store with no attempts for the `(user, quiz)`
pair, each recorded attempt's number is the count of the pair's prior attempts
plus one, and under any sequence of sequential submissions (submissions of
other pairs freely interleaved) the pair's attempt numbers are exactly
`1, 2, 3, …` up to the number of its submissions — strictly increasing,
starting at 1, with no gaps. -/
theorem attempt_numbers_sequential (u q : List Char) (db : Db)
    (ops : List SubmitOp) (h : attemptNumbersOf u q db = []) :
    (∀ (s : ℚ) (p : Bool) (dr : List DetailedResult) (now : ℤ) (db' : Db),
      (create_quiz_completion u q s p dr now db').1.attempt_number
        = (db'.user_quiz_completions.filter fun cc =>
            cc.user_id == u && cc.quiz_id == q).length + 1)
    ∧ attemptNumbersOf u q (applyOps ops db)
        = List.range' 1 ((ops.filter fun op =>
            op.user == u && op.quiz == q).length) := by
  constructor
  · intro s p dr now db'
    rfl
  · have h0 : attemptNumbersOf u q db = List.range' 1 0 := by simpa using h
    simpa using attemptNumbers_applyOps u q ops db 0 h0

/-- Witness for `attempt_numbers_sequential`: two submissions by `u1` on `q1`
with a submission of another user interleaved. -/
theorem attempt_numbers_sequential_witness :
    (∀ (s : ℚ) (p : Bool) (dr : List DetailedResult) (now : ℤ) (db' : Db),
      (create_quiz_completion "u1".toList "q1".toList s p dr now db').1.attempt_number
        = (db'.user_quiz_completions.filter fun cc =>
            cc.user_id == "u1".toList && cc.quiz_id == "q1".toList).length + 1)
    ∧ attemptNumbersOf "u1".toList "q1".toList
        (applyOps [⟨"u1".toList, "q1".toList, 50, true, [], 0⟩,
                   ⟨"u2".toList, "q1".toList, 20, false, [], 1⟩,
                   ⟨"u1".toList, "q1".toList, 70, true, [], 2⟩] emptyDb)
        = List.range' 1 ((([⟨"u1".toList, "q1".toList, 50, true, [], 0⟩,
                   ⟨"u2".toList, "q1".toList, 20, false, [], 1⟩,
                   ⟨"u1".toList, "q1".toList, 70, true, [], 2⟩] :
              List SubmitOp).filter fun op =>
            op.user == "u1".toList && op.quiz == "q1".toList).length) :=
  attempt_numbers_sequential "u1".toList "q1".toList emptyDb
    [⟨"u1".toList, "q1".toList, 50, true, [], 0⟩,
     ⟨"u2".toList, "q1".toList, 20, false, [], 1⟩,
     ⟨"u1".toList, "q1".toList, 70, true, [], 2⟩] rfl

/-- Claim C10, counterexample: deleting quiz `q1` also deletes the recorded
attempt against it — the attempt store is empty afterwards, so quiz deletion
does not leave attempt records present. -/
theorem delete_quiz_removes_attempts_counterexample :
    dbC10.user_quiz_completions.length = 1
    ∧ (delete_quiz "q1".toList dbC10).1 = true
    ∧ (delete_quiz "q1".toList dbC10).2.user_quiz_completions = [] :=
  ⟨rfl, rfl, rfl⟩

/-- Claim C10 (amended): attempt records are never mutated, and quiz update,
quiz creation and progress recomputation leave every attempt record present
and unmodified; quiz deletion, however, removes every attempt recorded
against the deleted quiz (attempts of other quizzes are preserved, and a
deletion of a non-existent quiz changes nothing). -/
theorem attempts_preserved_except_delete (db : Db) (qid cid : List Char)
    (ps : ℚ) (nq : List QuestionDoc) (quiz : QuizDoc) (qs : List QuestionDoc)
    (u c : List Char) (now : ℤ) :
    (update_quiz qid cid ps nq db).2.user_quiz_completions = db.user_quiz_completions
    ∧ (create_quiz quiz qs db).user_quiz_completions = db.user_quiz_completions
    ∧ (get_course_progress u c now db).2.user_quiz_completions = db.user_quiz_completions
    ∧ ((delete_quiz qid db).2.user_quiz_completions
        = if (db.quizzes.find? fun q => q.id == qid).isSome then
            db.user_quiz_completions.filter fun cc => !(cc.quiz_id == qid)
          else db.user_quiz_completions) := by
  refine ⟨?_, rfl, get_course_progress_completions u c now db, ?_⟩
  · cases hfq : db.quizzes.find? (fun q => q.id == qid) with
    | none => simp [update_quiz, hfq]
    | some q0 => simp [update_quiz, hfq]
  · cases hfq : db.quizzes.find? (fun q => q.id == qid) with
    | none => simp [delete_quiz, hfq]
    | some q0 => simp [delete_quiz, hfq]

theorem get_active_late_approval_isSome_iff (u a : List Char) (now : ℤ)
    (db : AsgDb) :
    (get_active_late_approval u a now db).isSome = true
      ↔ activeApprovalExists u a now db := by
  rw [get_active_late_approval, List.find?_isSome, activeApprovalExists]
  constructor
  · rintro ⟨x, hx, hp⟩
    simp only [Bool.and_eq_true, beq_iff_eq, decide_eq_true_eq] at hp
    exact ⟨x, hx, hp.1.1, hp.1.2, hp.2⟩
  · rintro ⟨x, hx, h1, h2, h3⟩
    refine ⟨x, hx, ?_⟩
    simp [h1, h2, h3]

theorem get_active_late_approval_none_iff (u a : List Char) (now : ℤ)
    (db : AsgDb) :
    get_active_late_approval u a now db = none
      ↔ ¬ activeApprovalExists u a now db := by
  rw [← get_active_late_approval_isSome_iff]
  cases h : get_active_late_approval u a now db with
  | none => simp
  | some x => simp

/-- The behavior of `createSubmission` characterized after the duplicate check: rejected with
the past-due message iff the (UTC-normalized) due date is strictly before
`now` and no active approval exists; otherwise the submission is appended. -/
theorem createSubmission_eq (u a : List Char) (due : PyDateTime)
    (stype : List Char) (content file_url : Option (List Char)) (now : ℤ)
    (db : AsgDb) (h : get_submission_by_user_and_assignment u a db = none) :
    createSubmission u a due stype content file_url now db
      = if due.t < now ∧ get_active_late_approval u a now db = none then
          .error "Assignment is past due date and no active late submission approval found".toList
        else
          .ok (⟨u, a, stype, content, file_url, now⟩,
            { db with submissions := db.submissions ++
                [⟨u, a, stype, content, file_url, now⟩] }) := by
  have hdt : (if due.aware then due else { due with aware := true }).t = due.t := by
    cases haw : due.aware <;> simp [haw]
  simp only [createSubmission, h, hdt]
  by_cases hpd : due.t < now
  · cases hap : get_active_late_approval u a now db with
    | none => simp [hpd]
    | some x => simp [hpd]
  · simp [hpd]

/-- Claim C7: for a submission attempt with no prior submission for the pair,
the attempt is accepted iff the current time is not after the (UTC-normalized)
due date or an active late approval with `approved_until > now` exists; when
it is past due with no active approval it is rejected with the past-due /
no-approval message. -/
theorem submission_eligibility (u a : List Char) (due : PyDateTime)
    (stype : List Char) (content file_url : Option (List Char)) (now : ℤ)
    (db : AsgDb) (h : get_submission_by_user_and_assignment u a db = none) :
    ((createSubmission u a due stype content file_url now db).isOk = true
      ↔ (due.t < now → activeApprovalExists u a now db))
    ∧ ((due.t < now ∧ ¬ activeApprovalExists u a now db) →
        createSubmission u a due stype content file_url now db
          = .error "Assignment is past due date and no active late submission approval found".toList) := by
  rw [createSubmission_eq u a due stype content file_url now db h]
  by_cases hpd : due.t < now
  · by_cases hex : activeApprovalExists u a now db
    · have hap : ¬ (get_active_late_approval u a now db = none) := by
        rw [get_active_late_approval_none_iff]
        exact not_not_intro hex
      rw [if_neg (by rintro ⟨_, hc⟩; exact hap hc)]
      constructor
      · simp [Except.isOk, Except.toBool, hex]
      · rintro ⟨_, hc⟩
        exact absurd hex hc
    · have hap : get_active_late_approval u a now db = none :=
        (get_active_late_approval_none_iff u a now db).mpr hex
      rw [if_pos ⟨hpd, hap⟩]
      constructor
      · simp only [Except.isOk, Except.toBool]
        constructor
        · intro hc
          exact absurd hc (by simp)
        · intro hc
          exact absurd (hc hpd) hex
      · intro _
        rfl
  · rw [if_neg (by rintro ⟨hc, _⟩; exact hpd hc)]
    constructor
    · simp only [Except.isOk, Except.toBool]
      constructor
      · intro _ hc
        exact absurd hc hpd
      · intro _
        trivial
    · rintro ⟨hc, _⟩
      exact absurd hc hpd

/-- Witness for `submission_eligibility`: an on-time submission (due at 10,
submitted at 5) with no prior submission and no approvals. -/
theorem submission_eligibility_witness :
    ((createSubmission "u1".toList "a1".toList ⟨10, true⟩ "text".toList
        (some "hello".toList) none 5 emptyAsgDb).isOk = true
      ↔ ((10 : ℤ) < 5 → activeApprovalExists "u1".toList "a1".toList 5 emptyAsgDb))
    ∧ (((10 : ℤ) < 5 ∧ ¬ activeApprovalExists "u1".toList "a1".toList 5 emptyAsgDb) →
        createSubmission "u1".toList "a1".toList ⟨10, true⟩ "text".toList
          (some "hello".toList) none 5 emptyAsgDb
          = .error "Assignment is past due date and no active late submission approval found".toList) :=
  submission_eligibility "u1".toList "a1".toList ⟨10, true⟩ "text".toList
    (some "hello".toList) none 5 emptyAsgDb rfl
